import Mathlib

/-!
A verification development for the QGenda shift-swap finder
(`swap_finder.py`).  The schedule is a flat table of
(date, person, shift-name) records; dates are modelled as integers
counting days since 1970-01-01 (so `d + 1` is the next day, exactly as
`timedelta(days=1)` in the source), and the sets of shift names that
come out of pandas queries are modelled as lists of strings whose
membership semantics coincide with Python set membership.
-/

namespace SwapFinder

/-! ### Shift taxonomy (module-level constants of `swap_finder.py`) -/

/-- `NIGHT_CALL_SHIFTS`: night calls that trigger a post-call day. -/
def NIGHT_CALL_SHIFTS : List String :=
  ["CA CLI Night Call", "CA Senior Night Call",
   "CA GOR1 Night Call", "CA GOR2 Night Call",
   "CA CART Night Call", "CA CV Call",
   "CA COMER Call", "CA ICU Call",
   "CA Northshore Call"]

/-- `CALL_SHIFTS`: shift categories for swap eligibility. -/
def CALL_SHIFTS : List String :=
  ["CA CLI Day Call", "CA CLI Night Call",
   "CA Senior Night Call",
   "CA GOR1 Night Call", "CA GOR2 Night Call",
   "CA CART Night Call", "CA CV Call",
   "CA COMER Call", "CA ICU Call",
   "CA Northshore Call"]

/-- `ICU_SHIFTS`: ICU rotations, cannot be swapped. -/
def ICU_SHIFTS : List String :=
  ["CA CTICU", "CA SICU", "CA ICU Call", "CA ICU 3 Elective"]

/-- `VACATION_SHIFTS`: vacation shifts, handled asymmetrically. -/
def VACATION_SHIFTS : List String :=
  ["CA Vacation", "CA Vacation Week"]

/-- `DAY_SHIFTS`: day-work rotations. -/
def DAY_SHIFTS : List String :=
  ["CA GOR", "CA GOR-Block", "CA AMB", "CA AMB- Block",
   "CA OB", "CA OB3", "CA PEDS", "CA Ortho",
   "CA CTICU", "CA SICU", "CA CV Cardiac", "CA CV-3",
   "CA Neuro", "CA Northshore", "CA Northshore Neuro",
   "CA PACU", "CA Pain Clinic", "CA Pain Clinic 3",
   "CA Urology", "CA Vascular Thoracic", "CA ECHO",
   "CA APMC", "CA APMC 3", "CA Research"]

/-- `UNAVAILABLE_SHIFTS`: shifts that indicate unavailability. -/
def UNAVAILABLE_SHIFTS : List String :=
  ["CA Vacation", "CA Vacation Week", "CA Sick",
   "CA Post Call", "CA Home Post Call", "CA Excused",
   "CA Interview", "CA Meeting", "CA half-day/meeting"]

/-- The union `CALL_SHIFTS | UNAVAILABLE_SHIFTS` used by every availability
check in the source (`unavail = CALL_SHIFTS | UNAVAILABLE_SHIFTS`). -/
def CALL_OR_UNAVAILABLE : List String := CALL_SHIFTS ++ UNAVAILABLE_SHIFTS

/-! ### Data model -/

/-- One row of the schedule table: `{'date': ..., 'name': ..., 'shift': ...}`. -/
structure Row where
  date : Int
  name : String
  shift : String
deriving DecidableEq

/-- The schedule DataFrame, as the list of its rows. -/
abbrev Schedule := List Row

/-- Python truthiness of `setA & setB`: the two shift-name collections have a
common member. -/
def intersects (a b : List String) : Bool :=
  a.any (fun s => decide (s ∈ b))

/-- The multiset of shift names a person holds on a date:
`schedule[(schedule['name'] == name) & (schedule['date'] == date)]['shift']`. -/
def shiftsOf (sched : Schedule) (name : String) (date : Int) : List String :=
  (sched.filter (fun r => decide (r.name = name) && decide (r.date = date))).map
    (fun r => r.shift)

/-- `shift.startswith('CA ')`, evaluated on the underlying character list so
that the kernel can reduce it. -/
def pfx : List Char → List Char → Bool
  | [], _ => true
  | _ :: _, [] => false
  | a :: as, b :: bs => decide (a = b) && pfx as bs

/-- Case-sensitive substring test (Python's `'Night' in shift`). -/
def subOf (pat : List Char) : List Char → Bool
  | [] => pat.isEmpty
  | b :: bs => pfx pat (b :: bs) || subOf pat bs

def startsWithCA (s : String) : Bool :=
  pfx "CA ".data s.data

def strContains (s pat : String) : Bool :=
  subOf pat.data s.data

/-- ASCII lower-casing; Python `str.lower` agrees with it on the all-ASCII
shift vocabulary. -/
def lowerChar (c : Char) : Char :=
  if 65 ≤ c.toNat ∧ c.toNat ≤ 90 then Char.ofNat (c.toNat + 32) else c

/-- Case-insensitive containment, as in
`Series.str.contains(pat, case=False)`.  (pandas reads the pattern as a
regular expression; on patterns without regex metacharacters, which is the
only way the source ever calls it, that is substring search.) -/
def strContainsCI (s pat : String) : Bool :=
  subOf (pat.data.map lowerChar) (s.data.map lowerChar)

/-- `schedule[schedule['shift'].str.startswith('CA ')]`. -/
def ca_filter (schedule : Schedule) : Schedule :=
  schedule.filter (fun r => startsWithCA r.shift)

/-- `set(ca_schedule['name'].unique())` with `discard(my_name)`.  A Python
set has no specified iteration order; we fix the first-occurrence order.
Every theorem below depends only on membership, never on this order. -/
def residentsOf (ca : Schedule) (myName : String) : List String :=
  ((ca.map (fun r => r.name)).eraseDups).filter (fun n => decide (n ≠ myName))

/-! ### Conflict checker -/

/-- The `ok_post_call` allow-list inside `has_post_call_conflict`. -/
def ok_post_call : List String :=
  ["CA Post Call", "CA Home Post Call",
   "CA Vacation", "CA Vacation Week",
   "CA Sick", "CA Excused"]

/-- `has_post_call_conflict(schedule, name, night_call_date)`: the person has
shifts on the day after the night call, and they are not all in the
`ok_post_call` allow-list (`issubset` test in the source). -/
def has_post_call_conflict (schedule : Schedule) (name : String)
    (nightCallDate : Int) : Bool :=
  let postShifts := shiftsOf schedule name (nightCallDate + 1)
  if postShifts.isEmpty then false
  else if postShifts.all (fun s => decide (s ∈ ok_post_call)) then false
  else true

/-! ### Basic lemmas about the helpers -/

theorem intersects_iff (a b : List String) :
    intersects a b = true ↔ ∃ s ∈ a, s ∈ b := by
  simp [intersects]

theorem intersects_eq_false_iff (a b : List String) :
    intersects a b = false ↔ ∀ s ∈ a, s ∉ b := by
  rw [← Bool.not_eq_true, intersects_iff]
  simp

theorem intersects_nil (b : List String) : intersects [] b = false := rfl

theorem intersects_append (a c b : List String) :
    intersects (a ++ c) b = (intersects a b || intersects c b) := by
  simp [intersects, List.any_append]

theorem bool_ext {a b : Bool} (h : a = true ↔ b = true) : a = b := by
  cases a <;> cases b <;> simp_all

theorem mem_shiftsOf (sched : Schedule) (n : String) (d : Int) (s : String) :
    s ∈ shiftsOf sched n d ↔ ∃ r ∈ sched, r.name = n ∧ r.date = d ∧ r.shift = s := by
  simp only [shiftsOf, List.mem_map, List.mem_filter, Bool.and_eq_true,
    decide_eq_true_eq]
  constructor
  · rintro ⟨r, ⟨hr, h1, h2⟩, h3⟩
    exact ⟨r, hr, h1, h2, h3⟩
  · rintro ⟨r, hr, h1, h2, h3⟩
    exact ⟨r, ⟨hr, h1, h2⟩, h3⟩

theorem mem_shiftsOf_ca_filter (sched : Schedule) (n : String) (d : Int) (s : String) :
    s ∈ shiftsOf (ca_filter sched) n d ↔
      s ∈ shiftsOf sched n d ∧ startsWithCA s = true := by
  simp only [mem_shiftsOf, ca_filter, List.mem_filter]
  constructor
  · rintro ⟨r, ⟨hr, hca⟩, h1, h2, h3⟩
    exact ⟨⟨r, hr, h1, h2, h3⟩, h3 ▸ hca⟩
  · rintro ⟨⟨r, hr, h1, h2, h3⟩, hca⟩
    exact ⟨r, ⟨hr, h3 ▸ hca⟩, h1, h2, h3⟩

/-- Bridging lemma: when every name in `L` starts with `'CA '`, intersection
tests against `L` see the same shifts before and after the `'CA '` prefilter. -/
theorem intersects_shiftsOf_ca (sched : Schedule) (n : String) (d : Int)
    (L : List String) (hL : ∀ s ∈ L, startsWithCA s = true) :
    intersects (shiftsOf (ca_filter sched) n d) L =
      intersects (shiftsOf sched n d) L := by
  apply bool_ext
  simp only [intersects_iff]
  constructor
  · rintro ⟨s, hs, hsL⟩
    exact ⟨s, (mem_shiftsOf_ca_filter sched n d s).mp hs |>.1, hsL⟩
  · rintro ⟨s, hs, hsL⟩
    exact ⟨s, (mem_shiftsOf_ca_filter sched n d s).mpr ⟨hs, hL s hsL⟩, hsL⟩

theorem call_or_unavailable_ca :
    ∀ s ∈ CALL_OR_UNAVAILABLE, startsWithCA s = true := by decide

theorem icu_ca : ∀ s ∈ ICU_SHIFTS, startsWithCA s = true := by decide

/-! ### C1: the post-call conflict predicate -/

/-- **C1.** `has_post_call_conflict(schedule, name, d)` is true iff the
person's set of shift names on `d + 1` is non-empty and contains at least one
shift name outside the acceptable post-call allow-list
`{CA Post Call, CA Home Post Call, CA Vacation, CA Vacation Week, CA Sick,
CA Excused}`; in particular it is false whenever the person has zero shifts
on `d + 1`. -/
theorem C1_has_post_call_conflict_iff (schedule : Schedule) (name : String) (d : Int) :
    has_post_call_conflict schedule name d = true ↔
      (shiftsOf schedule name (d + 1) ≠ [] ∧
        ∃ s ∈ shiftsOf schedule name (d + 1), s ∉ ok_post_call) := by
  unfold has_post_call_conflict
  generalize shiftsOf schedule name (d + 1) = l
  cases l with
  | nil => simp
  | cons a as =>
    by_cases hall : ∀ s ∈ a :: as, s ∈ ok_post_call
    · have h1 : (a :: as).all (fun s => decide (s ∈ ok_post_call)) = true := by
        simp only [List.all_eq_true, decide_eq_true_eq]; exact hall
      simp [h1]
      exact ⟨hall a (List.mem_cons_self a as),
        fun x hx => hall x (List.mem_cons_of_mem a hx)⟩
    · have h1 : (a :: as).all (fun s => decide (s ∈ ok_post_call)) = false := by
        rw [Bool.eq_false_iff]
        simp only [ne_eq, List.all_eq_true, decide_eq_true_eq]
        exact hall
      simp [h1]
      push_neg at hall
      obtain ⟨s, hs, hns⟩ := hall
      rcases List.mem_cons.mp hs with h | h
      · exact Or.inl (h ▸ hns)
      · exact Or.inr ⟨s, h, hns⟩

/-! ### C2: the taxonomy is *not* disjoint at the top level -/

/-- **C2, counterexample.** The four top-level category sets are not pairwise
disjoint: `CA CTICU` and `CA SICU` are both day-work and non-tradeable, and
`CA ICU Call` is both call and non-tradeable, so "every shift name belongs to
at most one of the four sets" fails. -/
theorem C2_counterexample :
    ("CA CTICU" ∈ DAY_SHIFTS ∧ "CA CTICU" ∈ ICU_SHIFTS) ∧
    ("CA SICU" ∈ DAY_SHIFTS ∧ "CA SICU" ∈ ICU_SHIFTS) ∧
    ("CA ICU Call" ∈ CALL_SHIFTS ∧ "CA ICU Call" ∈ ICU_SHIFTS) := by
  decide

/-- **C2, amended.** The call, day-work and unavailable sets are pairwise
disjoint and the night-call set is a subset of the call set; the
non-tradeable (ICU) set is disjoint from the unavailable set but overlaps
both the call set (`CA ICU Call`) and the day-work set (`CA CTICU`,
`CA SICU`). -/
theorem C2_amended_taxonomy :
    intersects CALL_SHIFTS DAY_SHIFTS = false ∧
    intersects CALL_SHIFTS UNAVAILABLE_SHIFTS = false ∧
    intersects DAY_SHIFTS UNAVAILABLE_SHIFTS = false ∧
    intersects ICU_SHIFTS UNAVAILABLE_SHIFTS = false ∧
    NIGHT_CALL_SHIFTS.all (fun s => decide (s ∈ CALL_SHIFTS)) = true ∧
    ("CA ICU Call" ∈ CALL_SHIFTS ∧ "CA ICU Call" ∈ ICU_SHIFTS) ∧
    ("CA CTICU" ∈ DAY_SHIFTS ∧ "CA CTICU" ∈ ICU_SHIFTS ∧
     "CA SICU" ∈ DAY_SHIFTS ∧ "CA SICU" ∈ ICU_SHIFTS) := by
  decide

/-! ### A stable comparison sort

The source sorts with `DataFrame.sort_values` and Python's `sorted`.  We
model both with a stable insertion sort: Python's `sorted` is stable, and
every ordering fact proved below depends only on the sort being a
permutation that is sorted for the comparison key (pandas' default
`sort_values` kind leaves the order of tied keys unspecified, so no theorem
below depends on tie order of `sort_values`). -/

def insertLe (le : α → α → Bool) (a : α) : List α → List α
  | [] => [a]
  | b :: bs => if le b a && !(le a b) then b :: insertLe le a bs else a :: b :: bs

def insSort (le : α → α → Bool) : List α → List α
  | [] => []
  | x :: xs => insertLe le x (insSort le xs)

theorem mem_insertLe (le : α → α → Bool) (a x : α) (l : List α) :
    x ∈ insertLe le a l ↔ x = a ∨ x ∈ l := by
  induction l with
  | nil => simp [insertLe]
  | cons b bs ih =>
    simp only [insertLe]
    split
    · simp only [List.mem_cons, ih]
      tauto
    · simp only [List.mem_cons]

theorem mem_insSort (le : α → α → Bool) (x : α) (l : List α) :
    x ∈ insSort le l ↔ x ∈ l := by
  induction l with
  | nil => simp [insSort]
  | cons b bs ih =>
    simp only [insSort, mem_insertLe, List.mem_cons, ih]

theorem pairwise_insertLe (le : α → α → Bool)
    (htrans : ∀ a b c, le a b = true → le b c = true → le a c = true)
    (htot : ∀ a b, le a b = true ∨ le b a = true)
    (a : α) (l : List α) (h : l.Pairwise (fun x y => le x y = true)) :
    (insertLe le a l).Pairwise (fun x y => le x y = true) := by
  induction l with
  | nil => simp [insertLe]
  | cons b bs ih =>
    rw [List.pairwise_cons] at h
    obtain ⟨hb, hbs⟩ := h
    simp only [insertLe]
    split
    · rename_i hcond
      rw [Bool.and_eq_true] at hcond
      rw [List.pairwise_cons]
      refine ⟨?_, ih hbs⟩
      intro x hx
      rcases (mem_insertLe le a x bs).mp hx with hxa | hxbs
      · exact hxa ▸ hcond.1
      · exact hb x hxbs
    · rename_i hcond
      have hab : le a b = true := by
        rcases htot a b with h1 | h1
        · exact h1
        · by_cases h2 : le a b = true
          · exact h2
          · exfalso
            apply hcond
            rw [h1, Bool.eq_false_iff.mpr h2]
            rfl
      rw [List.pairwise_cons]
      refine ⟨?_, List.pairwise_cons.mpr ⟨hb, hbs⟩⟩
      intro x hx
      rcases List.mem_cons.mp hx with hxb | hxbs
      · exact hxb ▸ hab
      · exact htrans a b x hab (hb x hxbs)

theorem pairwise_insSort (le : α → α → Bool)
    (htrans : ∀ a b c, le a b = true → le b c = true → le a c = true)
    (htot : ∀ a b, le a b = true ∨ le b a = true)
    (l : List α) : (insSort le l).Pairwise (fun x y => le x y = true) := by
  induction l with
  | nil => simp [insSort]
  | cons b bs ih => exact pairwise_insertLe le htrans htot b (insSort le bs) ih

/-! ### Single-shift search (`find_swap_candidates`) -/

/-- One output row of `find_swap_candidates`. -/
structure Candidate where
  candidate : String
  their_date : Int
  their_shift : String
  your_date : Int
  your_shift : String
  you_available_their_date : Bool
deriving DecidableEq

/-- The `(start, end)` window of candidate-offered shifts: the explicit
`target_date_range` when given, else `my_date ± 14` days. -/
def swapWindow (myDate : Int) : Option (Int × Int) → Int × Int
  | some p => p
  | none => (myDate - 14, myDate + 14)

/-- The availability block of the source: free when one has no shifts that
day, else when the day's shifts avoid `CALL_SHIFTS | UNAVAILABLE_SHIFTS`. -/
def availOn (ca : Schedule) (name : String) (d : Int) : Bool :=
  if (shiftsOf ca name d).isEmpty then true
  else !(intersects (shiftsOf ca name d) CALL_OR_UNAVAILABLE)

theorem availOn_imp (ca : Schedule) (name : String) (d : Int)
    (h : availOn ca name d = true) :
    intersects (shiftsOf ca name d) CALL_OR_UNAVAILABLE = false := by
  unfold availOn at h
  split at h
  · rename_i hemp
    rw [List.isEmpty_iff] at hemp
    rw [hemp]
    rfl
  · simp only [Bool.not_eq_true'] at h
    exact h

/-- The candidate-offered shifts of one resident: the resident's rows in the
search window, filtered by the optional shift-type pattern, or restricted to
call shifts when the requester's shift is a call shift. -/
def potentialSwaps (ca : Schedule) (myDate : Int) (myShift : String)
    (targetRange : Option (Int × Int)) (targetShiftType : Option String)
    (resident : String) : List Row :=
  let se := swapWindow myDate targetRange
  let inWindow : List Row := (ca.filter (fun r => decide (r.name = resident))).filter
    (fun (r : Row) => decide (se.1 ≤ r.date) && decide (r.date ≤ se.2))
  match targetShiftType with
  | some t => inWindow.filter (fun (r : Row) => strContainsCI r.shift t)
  | none =>
    if myShift ∈ CALL_SHIFTS then
      inWindow.filter (fun (r : Row) => decide (r.shift ∈ CALL_SHIFTS))
    else inWindow

/-- The body of the `for resident in all_residents` loop of
`find_swap_candidates`: all rows this resident contributes. -/
def candidateRowsFor (ca : Schedule) (myName : String) (myDate : Int)
    (myShift : String) (targetRange : Option (Int × Int))
    (targetShiftType : Option String) (resident : String) : List Candidate :=
  if !(shiftsOf ca resident myDate).isEmpty
      && intersects (shiftsOf ca resident myDate) CALL_OR_UNAVAILABLE then
    []
  else
    (potentialSwaps ca myDate myShift targetRange targetShiftType resident).filterMap
      (fun (swap : Row) =>
        if availOn ca myName swap.date = true then
          if (decide (swap.shift ∈ NIGHT_CALL_SHIFTS)
                && has_post_call_conflict ca myName swap.date)
              || (decide (myShift ∈ NIGHT_CALL_SHIFTS)
                && has_post_call_conflict ca resident myDate) then
            none
          else
            some ⟨resident, swap.date, swap.shift, myDate, myShift,
              availOn ca myName swap.date⟩
        else none)

/-- `find_swap_candidates(schedule, my_name, my_date, my_shift,
target_date_range, target_shift_type)`; the result is sorted by
`their_date` ascending (`sort_values('their_date')`). -/
def find_swap_candidates (schedule : Schedule) (myName : String) (myDate : Int)
    (myShift : String) (targetRange : Option (Int × Int))
    (targetShiftType : Option String) : List Candidate :=
  let ca := ca_filter schedule
  insSort (fun a b => decide (a.their_date ≤ b.their_date))
    ((residentsOf ca myName).flatMap
      (candidateRowsFor ca myName myDate myShift targetRange targetShiftType))

/-! ### Weekend classifier and ease scorer -/

/-- `classify_weekend_type(sat_shifts, sun_shifts)`. -/
def classify_weekend_type (satShifts sunShifts : List String) : String :=
  let allShifts := satShifts ++ sunShifts
  if intersects allShifts CALL_SHIFTS = true then "night"
  else if intersects allShifts DAY_SHIFTS = true then "day"
  else "off"

/-- `candidate in prefers_nights if candidate else False` (a `None` or empty
candidate name is falsy in Python). -/
def candidatePrefersNights (candidate : Option String)
    (prefersNights : List String) : Bool :=
  match candidate with
  | none => false
  | some c => if c = "" then false else decide (c ∈ prefersNights)

/-- `calculate_swap_ease(my_type, their_type, prefers_nights, candidate,
their_shifts)`.  The source's vacation guard
`their_shifts and (their_shifts & VACATION_SHIFTS)` is truthy exactly when
the intersection is non-empty. -/
def calculate_swap_ease (myType theirType : String)
    (prefersNights : List String) (candidate : Option String)
    (theirShifts : List String) : String :=
  if intersects theirShifts VACATION_SHIFTS = true then "Very hard"
  else
    if myType = theirType then "Easy"
    else if myType = "night" ∧ theirType = "day" then
      if candidatePrefersNights candidate prefersNights = true then "Easy"
      else "Hard sell"
    else if myType = "day" ∧ theirType = "night" then
      if candidatePrefersNights candidate prefersNights = true then "Hard sell"
      else "Easy"
    else if myType = "night" ∧ theirType = "off" then
      if candidatePrefersNights candidate prefersNights = true then "Moderate"
      else "Hard sell"
    else if myType = "off" ∧ theirType = "night" then
      if candidatePrefersNights candidate prefersNights = true then "Hard sell"
      else "Easy"
    else if myType = "day" ∧ theirType = "off" then "Moderate"
    else if myType = "off" ∧ theirType = "day" then "Easy"
    else "Moderate"

/-! ### C6: weekend classification -/

/-- **C6.** `classify_weekend_type` returns `night` when the union of the two
day-sets meets the call category, else `day` when it meets the day-work
category, else `off` (night takes precedence over day); and on the three
concrete examples it returns `night`, `day` and `off` respectively. -/
theorem C6_classify_weekend_type (satShifts sunShifts : List String) :
    ((∃ s ∈ satShifts ++ sunShifts, s ∈ CALL_SHIFTS) →
        classify_weekend_type satShifts sunShifts = "night") ∧
    (¬(∃ s ∈ satShifts ++ sunShifts, s ∈ CALL_SHIFTS) →
      (∃ s ∈ satShifts ++ sunShifts, s ∈ DAY_SHIFTS) →
        classify_weekend_type satShifts sunShifts = "day") ∧
    (¬(∃ s ∈ satShifts ++ sunShifts, s ∈ CALL_SHIFTS) →
      ¬(∃ s ∈ satShifts ++ sunShifts, s ∈ DAY_SHIFTS) →
        classify_weekend_type satShifts sunShifts = "off") ∧
    classify_weekend_type ["CA CV Call"] [] = "night" ∧
    classify_weekend_type [] ["CA OB"] = "day" ∧
    classify_weekend_type [] [] = "off" := by
  refine ⟨?_, ?_, ?_, by decide, by decide, by decide⟩
  · intro h
    have hc : intersects (satShifts ++ sunShifts) CALL_SHIFTS = true :=
      (intersects_iff _ _).mpr h
    simp [classify_weekend_type, hc]
  · intro hn hd
    have hc : intersects (satShifts ++ sunShifts) CALL_SHIFTS = false := by
      rw [Bool.eq_false_iff]
      exact fun hx => hn ((intersects_iff _ _).mp hx)
    have hdt : intersects (satShifts ++ sunShifts) DAY_SHIFTS = true :=
      (intersects_iff _ _).mpr hd
    simp [classify_weekend_type, hc, hdt]
  · intro hn hd
    have hc : intersects (satShifts ++ sunShifts) CALL_SHIFTS = false := by
      rw [Bool.eq_false_iff]
      exact fun hx => hn ((intersects_iff _ _).mp hx)
    have hdt : intersects (satShifts ++ sunShifts) DAY_SHIFTS = false := by
      rw [Bool.eq_false_iff]
      exact fun hx => hd ((intersects_iff _ _).mp hx)
    simp [classify_weekend_type, hc, hdt]

/-- Witness for C6 at a concrete input. -/
theorem C6_witness : classify_weekend_type ["CA CV Call"] [] = "night" :=
  (C6_classify_weekend_type ["CA CV Call"] []).1
    ⟨"CA CV Call", by decide, by decide⟩

/-! ### C5: the ease table -/

/-- **C5.** `calculate_swap_ease` returns `Very hard` whenever the
candidate's shifts meet the vacation set, regardless of the weekend types
and the night preference; otherwise `Easy` on equal types; otherwise the
directional table keyed by (my type, their type, candidate prefers nights);
and `Moderate` for any remaining combination. -/
theorem C5_calculate_swap_ease (myType theirType : String)
    (prefersNights : List String) (candidate : Option String)
    (theirShifts : List String) :
    (intersects theirShifts VACATION_SHIFTS = true →
      calculate_swap_ease myType theirType prefersNights candidate theirShifts
        = "Very hard") ∧
    (intersects theirShifts VACATION_SHIFTS = false →
      ((myType = theirType →
        calculate_swap_ease myType theirType prefersNights candidate theirShifts
          = "Easy") ∧
      (myType = "night" → theirType = "day" →
        calculate_swap_ease myType theirType prefersNights candidate theirShifts
          = (if candidatePrefersNights candidate prefersNights = true
              then "Easy" else "Hard sell")) ∧
      (myType = "day" → theirType = "night" →
        calculate_swap_ease myType theirType prefersNights candidate theirShifts
          = (if candidatePrefersNights candidate prefersNights = true
              then "Hard sell" else "Easy")) ∧
      (myType = "night" → theirType = "off" →
        calculate_swap_ease myType theirType prefersNights candidate theirShifts
          = (if candidatePrefersNights candidate prefersNights = true
              then "Moderate" else "Hard sell")) ∧
      (myType = "off" → theirType = "night" →
        calculate_swap_ease myType theirType prefersNights candidate theirShifts
          = (if candidatePrefersNights candidate prefersNights = true
              then "Hard sell" else "Easy")) ∧
      (myType = "day" → theirType = "off" →
        calculate_swap_ease myType theirType prefersNights candidate theirShifts
          = "Moderate") ∧
      (myType = "off" → theirType = "day" →
        calculate_swap_ease myType theirType prefersNights candidate theirShifts
          = "Easy") ∧
      (myType ≠ theirType →
        ¬(myType = "night" ∧ theirType = "day") →
        ¬(myType = "day" ∧ theirType = "night") →
        ¬(myType = "night" ∧ theirType = "off") →
        ¬(myType = "off" ∧ theirType = "night") →
        ¬(myType = "day" ∧ theirType = "off") →
        ¬(myType = "off" ∧ theirType = "day") →
        calculate_swap_ease myType theirType prefersNights candidate theirShifts
          = "Moderate"))) := by
  constructor
  · intro hv
    simp [calculate_swap_ease, hv]
  · intro hv
    refine ⟨?_, ?_, ?_, ?_, ?_, ?_, ?_, ?_⟩
    · intro h
      simp [calculate_swap_ease, hv, h]
    · intro h1 h2
      subst h1; subst h2
      simp [calculate_swap_ease, hv]
    · intro h1 h2
      subst h1; subst h2
      simp [calculate_swap_ease, hv]
    · intro h1 h2
      subst h1; subst h2
      simp [calculate_swap_ease, hv]
    · intro h1 h2
      subst h1; subst h2
      simp [calculate_swap_ease, hv]
    · intro h1 h2
      subst h1; subst h2
      simp [calculate_swap_ease, hv]
    · intro h1 h2
      subst h1; subst h2
      simp [calculate_swap_ease, hv]
    · intro hne hp1 hp2 hp3 hp4 hp5 hp6
      unfold calculate_swap_ease
      rw [hv]
      rw [if_neg (by simp)]
      rw [if_neg hne, if_neg hp1, if_neg hp2, if_neg hp3, if_neg hp4,
        if_neg hp5, if_neg hp6]

/-- Witness for C5: a night-for-day ask with no night preference is a
`Hard sell`. -/
theorem C5_witness :
    calculate_swap_ease "night" "day" [] none [] = "Hard sell" := by
  have h := ((C5_calculate_swap_ease "night" "day" [] none []).2 (by decide)).2.1
    rfl rfl
  simpa using h

/-! ### Calendar helpers

Dates are days since 1970-01-01 (a Thursday).  `weekday` matches
`Timestamp.weekday()` (Monday = 0); `civilDate` is the standard
days-to-civil-date conversion, used only to render the `%m/%d` and
`%Y-%m-%d` strings appearing in the weekend labels and trip shift keys. -/

def weekday (d : Int) : Int := (d + 3) % 7

def civilDate (z0 : Int) : Int × Int × Int :=
  let z := z0 + 719468
  let era := z / 146097
  let doe := z - era * 146097
  let yoe := (doe - doe / 1460 + doe / 36524 - doe / 146096) / 365
  let doy := doe - (365 * yoe + yoe / 4 - yoe / 100)
  let mp := (5 * doy + 2) / 153
  let d := doy - (153 * mp + 2) / 5 + 1
  let m := mp + (if mp < 10 then 3 else -9)
  let y := yoe + era * 400 + (if m ≤ 2 then 1 else 0)
  (y, m, d)

def digitChar (n : Int) : Char := Char.ofNat (48 + n.toNat)

def pad2 (n : Int) : String := String.mk [digitChar (n / 10 % 10), digitChar (n % 10)]

def pad4 (n : Int) : String :=
  String.mk [digitChar (n / 1000 % 10), digitChar (n / 100 % 10),
    digitChar (n / 10 % 10), digitChar (n % 10)]

/-- `strftime('%m/%d')`. -/
def mmdd (z : Int) : String :=
  pad2 (civilDate z).2.1 ++ "/" ++ pad2 (civilDate z).2.2

/-- `strftime('%Y-%m-%d')`. -/
def ymd (z : Int) : String :=
  pad4 (civilDate z).1 ++ "-" ++ pad2 (civilDate z).2.1 ++ "-" ++ pad2 (civilDate z).2.2

/-- The `their_weekend` display string
`f"Sat {saturday.strftime('%m/%d')} - Sun {sunday.strftime('%m/%d')}"`. -/
def weekendLabel (saturday sunday : Int) : String :=
  "Sat " ++ mmdd saturday ++ " - Sun " ++ mmdd sunday

/-- `', '.join(shifts) if shifts else 'OFF'` (the source joins a Python set,
whose iteration order is unspecified; we fix schedule order). -/
def joinShifts (shifts : List String) : String :=
  if shifts.isEmpty then "OFF" else String.intercalate ", " shifts

/-- ASCII upper-casing of one character. -/
def upChar (c : Char) : Char :=
  if 97 ≤ c.toNat ∧ c.toNat ≤ 122 then Char.ofNat (c.toNat - 32) else c

/-- `str.title()` as applied to the one-word weekend type labels
(`night`, `day`, `off`): upper-case the first character. -/
def capitalizeStr (s : String) : String :=
  match s.data with
  | [] => ""
  | c :: cs => String.mk (upChar c :: cs)

/-! ### Weekend swap search (`find_weekend_swap`) -/

/-- One output row of `find_weekend_swap`. -/
structure WRow where
  candidate : String
  their_weekend : String
  their_sat_shift : String
  their_sun_shift : String
  swap_type : String
  ease : String
  available_your_weekend : Bool
deriving DecidableEq

/-- The `ease_order` map used for sorting
(`{'Easy': 0, 'Moderate': 1, 'Hard sell': 2, 'Very hard': 3}`; any other
label maps to NaN, which pandas sorts last — the search only ever emits the
four labels). -/
def easeOrder (e : String) : Nat :=
  if e = "Easy" then 0
  else if e = "Moderate" then 1
  else if e = "Hard sell" then 2
  else if e = "Very hard" then 3
  else 4

/-- Lexicographic comparison of character lists by code point: exactly
Python's `<` on strings. -/
def charListLt : List Char → List Char → Bool
  | [], [] => false
  | [], _ :: _ => true
  | _ :: _, [] => false
  | a :: as, b :: bs => decide (a < b) || (decide (a = b) && charListLt as bs)

/-- Python's `<` on strings (code-point lexicographic order). -/
def strLt (a b : String) : Bool := charListLt a.data b.data

theorem charListLt_trans : ∀ x y z : List Char,
    charListLt x y = true → charListLt y z = true → charListLt x z = true
  | x, y, [], _, hyz => by
    exfalso
    cases y <;> simp [charListLt] at hyz
  | [], _, _ :: _, _, _ => rfl
  | _ :: _, [], _ :: _, hxy, _ => by simp [charListLt] at hxy
  | a :: as, b :: bs, c :: cs, hxy, hyz => by
    simp only [charListLt, Bool.or_eq_true, Bool.and_eq_true,
      decide_eq_true_eq] at hxy hyz ⊢
    rcases hxy with h1 | ⟨h1, h1r⟩
    · rcases hyz with h2 | ⟨h2, h2r⟩
      · exact Or.inl (lt_trans h1 h2)
      · exact Or.inl (h2 ▸ h1)
    · rcases hyz with h2 | ⟨h2, h2r⟩
      · exact Or.inl (h1 ▸ h2)
      · exact Or.inr ⟨h1.trans h2, charListLt_trans as bs cs h1r h2r⟩

theorem charListLt_trichotomy : ∀ x y : List Char,
    charListLt x y = true ∨ charListLt y x = true ∨ x = y
  | [], [] => Or.inr (Or.inr rfl)
  | [], _ :: _ => Or.inl rfl
  | _ :: _, [] => Or.inr (Or.inl rfl)
  | a :: as, b :: bs => by
    rcases lt_trichotomy a b with h | h | h
    · exact Or.inl (by simp [charListLt, h])
    · subst h
      rcases charListLt_trichotomy as bs with h2 | h2 | h2
      · exact Or.inl (by simp [charListLt, h2])
      · exact Or.inr (Or.inl (by simp [charListLt, h2]))
      · exact Or.inr (Or.inr (by rw [h2]))
    · exact Or.inr (Or.inl (by simp [charListLt, h]))

theorem strLt_trans (x y z : String) :
    strLt x y = true → strLt y z = true → strLt x z = true :=
  charListLt_trans x.data y.data z.data

theorem strLt_trichotomy (x y : String) :
    strLt x y = true ∨ strLt y x = true ∨ x = y := by
  rcases charListLt_trichotomy x.data y.data with h | h | h
  · exact Or.inl h
  · exact Or.inr (Or.inl h)
  · refine Or.inr (Or.inr ?_)
    cases x; cases y
    exact congrArg String.mk h

/-- The sort key of `find_weekend_swap`:
`sort_values(['their_weekend', '_ease_order'])` — primarily the weekend
display string ascending, secondarily the ease rank ascending. -/
def wle (a b : WRow) : Bool :=
  strLt a.their_weekend b.their_weekend
  || (decide (a.their_weekend = b.their_weekend)
      && decide (easeOrder a.ease ≤ easeOrder b.ease))

/-- The body of the `for resident in all_residents` loop of
`find_weekend_swap` for one candidate weekend `(saturday, sunday)`.
The source's two post-call `for` loops over the night calls of a weekend
skip exactly when some night call sits on a day whose following day fails
`has_post_call_conflict`, which is what the four conjuncts below encode. -/
def weekendCandidate (ca : Schedule) (myName : String) (wd0 wd1 : Int)
    (prefersNights : List String) (mySatShifts mySunShifts : List String)
    (myWeekendType : String) (saturday sunday : Int) (resident : String) :
    Option WRow :=
  if intersects (shiftsOf ca resident saturday ++ shiftsOf ca resident sunday)
      ICU_SHIFTS = true then none
  else if intersects (shiftsOf ca resident wd0 ++ shiftsOf ca resident wd1)
      ICU_SHIFTS = true then none
  else if intersects (shiftsOf ca myName saturday ++ shiftsOf ca myName sunday)
      ICU_SHIFTS = true then none
  else if (!(intersects (shiftsOf ca resident wd0 ++ shiftsOf ca resident wd1)
          CALL_OR_UNAVAILABLE)
      && !(intersects (shiftsOf ca myName saturday ++ shiftsOf ca myName sunday)
          CALL_OR_UNAVAILABLE)) = true then
    if ((intersects (shiftsOf ca resident saturday) NIGHT_CALL_SHIFTS
          && has_post_call_conflict ca myName saturday)
        || (intersects (shiftsOf ca resident sunday) NIGHT_CALL_SHIFTS
          && has_post_call_conflict ca myName sunday)
        || (intersects mySatShifts NIGHT_CALL_SHIFTS
          && has_post_call_conflict ca resident wd0)
        || (intersects mySunShifts NIGHT_CALL_SHIFTS
          && has_post_call_conflict ca resident wd1)) = true then none
    else
      some { candidate := resident,
             their_weekend := weekendLabel saturday sunday,
             their_sat_shift := joinShifts (shiftsOf ca resident saturday),
             their_sun_shift := joinShifts (shiftsOf ca resident sunday),
             swap_type := capitalizeStr myWeekendType ++ "↔"
               ++ capitalizeStr (classify_weekend_type (shiftsOf ca resident saturday)
                    (shiftsOf ca resident sunday)),
             ease := calculate_swap_ease myWeekendType
               (classify_weekend_type (shiftsOf ca resident saturday)
                 (shiftsOf ca resident sunday))
               prefersNights (some resident)
               (shiftsOf ca resident saturday ++ shiftsOf ca resident sunday),
             available_your_weekend :=
               !(intersects (shiftsOf ca resident wd0 ++ shiftsOf ca resident wd1)
                   CALL_OR_UNAVAILABLE) }
  else none

/-- The successive values of `current` in the
`while current <= end_check: ... current += timedelta(days=7)` loop. -/
def weekendStarts (startCheck endCheck : Int) : List Int :=
  if startCheck ≤ endCheck then
    (List.range ((endCheck - startCheck).toNat / 7 + 1)).map
      (fun i => startCheck + 7 * (i : Int))
  else []

/-- `find_weekend_swap(schedule, my_name, [wd0, wd1], look_back_weeks,
look_forward_weeks)`.  The `prefers_nights` list comes from the external
friends store (`load_friends()`), passed here as a parameter.  The result is
sorted by `['their_weekend', '_ease_order']`. -/
def find_weekend_swap (schedule : Schedule) (myName : String) (wd0 wd1 : Int)
    (lookBackWeeks lookForwardWeeks : Int) (prefersNights : List String) :
    List WRow :=
  let ca := ca_filter schedule
  let mySatShifts := shiftsOf ca myName wd0
  let mySunShifts := shiftsOf ca myName wd1
  let myWeekendType := classify_weekend_type mySatShifts mySunShifts
  let startCheck := min wd0 wd1 - 7 * lookBackWeeks
  let endCheck := max wd0 wd1 + 7 * lookForwardWeeks
  insSort wle
    ((weekendStarts startCheck endCheck).flatMap (fun current =>
      let saturday := current + (5 - weekday current) % 7
      let sunday := saturday + 1
      if saturday = wd0 ∨ saturday = wd1 then []
      else if saturday < startCheck ∨ endCheck < sunday then []
      else (residentsOf ca myName).filterMap
        (weekendCandidate ca myName wd0 wd1 prefersNights mySatShifts
          mySunShifts myWeekendType saturday sunday)))

/-! ### Trip coverage (`find_trip_coverage`) -/

/-- One entry of the `blocking_shifts` list. -/
structure BlockInfo where
  date : Int
  shift : String
  blocks_travel : Bool
  reason : String
deriving DecidableEq

/-- The classification loop of `find_trip_coverage`: `blocks_travel` is
`shift in CALL_SHIFTS`, overridden on the extended departure day
(`date < start`) by the substring test `'Night' in shift`.  (The source's
early return on an empty shift list produces the same empty list.) -/
def blocksFor (ca : Schedule) (myName : String) (tripStart tripEnd : Int)
    (departDayBefore : Bool) : List BlockInfo :=
  let checkStart := if departDayBefore then tripStart - 1 else tripStart
  let myShifts := ca.filter (fun (r : Row) =>
    decide (r.name = myName) && decide (checkStart ≤ r.date) && decide (r.date ≤ tripEnd))
  myShifts.map (fun (r : Row) =>
    { date := r.date,
      shift := r.shift,
      blocks_travel :=
        if r.date < tripStart then strContains r.shift "Night"
        else decide (r.shift ∈ CALL_SHIFTS),
      reason :=
        if strContains r.shift "Night" = true then "Night call prevents travel"
        else if r.shift ∈ CALL_SHIFTS then "Call shift"
        else "Day shift during trip" })

/-- The `candidates_by_shift` mapping, as an insertion-ordered association
list: one key `f"{date} ({shift})"` per blocking shift with a non-empty
candidate search. -/
def candidatesByShift (ca : Schedule) (myName : String)
    (blocks : List BlockInfo) : List (String × List Candidate) :=
  blocks.filterMap (fun (b : BlockInfo) =>
    if b.blocks_travel = true then
      let cands := find_swap_candidates ca myName b.date b.shift none none
      if cands.isEmpty then none
      else some (ymd b.date ++ " (" ++ b.shift ++ ")", cands)
    else none)

/-- Appending one `(candidate, shift-key)` pair to the insertion-ordered
reverse index (`candidate_coverage` dict of the source). -/
def addCover : List (String × List String) → String → String → List (String × List String)
  | [], cand, key => [(cand, [key])]
  | (c, ks) :: rest, cand, key =>
    if c = cand then (c, ks ++ [key]) :: rest
    else (c, ks) :: addCover rest cand key

/-- The reverse index `candidate → list of shift keys they can cover`, built
in the source's iteration order (shift keys in `candidates_by_shift` order,
candidates in first-appearance order via `df['candidate'].unique()`). -/
def coverageIndex (cbs : List (String × List Candidate)) :
    List (String × List String) :=
  cbs.foldl (fun acc kv =>
    (((kv.2.map (fun (c : Candidate) => c.candidate)).eraseDups).foldl
      (fun a cand => addCover a cand kv.1) acc)) []

/-- One package recommendation. -/
structure Package where
  candidate : String
  can_cover : List String
  coverage_count : Nat
deriving DecidableEq

/-- `package_recommendations`: only built when there is more than one shift
key; candidates sorted by descending coverage count with Python's stable
`sorted`, keeping only those covering more than one shift. -/
def packagesOf (cbs : List (String × List Candidate)) : List Package :=
  if 1 < cbs.length then
    (((insSort (fun a b => decide (b.2.length ≤ a.2.length)) (coverageIndex cbs)).filter
      (fun (e : String × List String) => decide (1 < e.2.length))).map
      (fun (e : String × List String) =>
        { candidate := e.1, can_cover := e.2, coverage_count := e.2.length }))
  else []

/-- The result bundle of `find_trip_coverage`. -/
structure TripResult where
  blocking_shifts : List BlockInfo
  candidates_by_shift : List (String × List Candidate)
  package_recommendations : List Package

/-- `find_trip_coverage(schedule, my_name, trip_start, trip_end,
depart_day_before)`. -/
def find_trip_coverage (schedule : Schedule) (myName : String)
    (tripStart tripEnd : Int) (departDayBefore : Bool) : TripResult :=
  let ca := ca_filter schedule
  let blocks := blocksFor ca myName tripStart tripEnd departDayBefore
  let cbs := candidatesByShift ca myName blocks
  { blocking_shifts := blocks,
    candidates_by_shift := cbs,
    package_recommendations := packagesOf cbs }

/-! ### Concrete schedules used by counterexamples and witnesses

Day numbers are days since 1970-01-01; day 2 is Saturday 1970-01-03. -/

def sched1 : Schedule := [⟨10, "Me", "CA GOR"⟩, ⟨11, "R", "CA CTICU"⟩]

def sched2 : Schedule := [⟨2, "Me", "CA CTICU"⟩, ⟨9, "R", "CA GOR"⟩]

def sched3 : Schedule :=
  [⟨2, "Me", "CA CLI Night Call"⟩, ⟨9, "R", "CA GOR"⟩, ⟨16, "R", "CA CLI Night Call"⟩]

def sched4 : Schedule := [⟨9, "Me", "CA CV Call"⟩, ⟨11, "Me", "CA GOR"⟩]

def sched5 : Schedule :=
  [⟨10, "Me", "CA CV Call"⟩, ⟨11, "Me", "CA CLI Day Call"⟩,
   ⟨20, "Zed", "CA CLI Day Call"⟩, ⟨22, "Abe", "CA CLI Day Call"⟩]

/-! ### C3, counterexample -/

/-- **C3, counterexample.**  The single-shift search performs no
non-tradeable exclusion: on `sched1` it returns a pairing whose offered
shift is the ICU rotation `CA CTICU`.  And the weekend search does not check
the requester's own weekend: on `sched2` it returns a candidate even though
the requester holds `CA CTICU` on the requested weekend's Saturday. -/
theorem C3_counterexample :
    ((find_swap_candidates sched1 "Me" 10 "CA GOR" none none).map
        (fun c => c.their_shift) = ["CA CTICU"]) ∧
    "CA CTICU" ∈ ICU_SHIFTS ∧
    ((find_weekend_swap sched2 "Me" 2 3 0 1 []).map
        (fun c => c.candidate) = ["R"]) ∧
    "CA CTICU" ∈ shiftsOf sched2 "Me" 2 := by
  decide

/-! ### C4, code-bug evaluation -/

/-- **C4, failing input.**  With a trip on days 10–12 and
`depart_day_before = true`, a `CA CV Call` night call on the extended
departure day (day 9) gets `blocks_travel = false` (the code tests the
substring `'Night'` instead of membership in its own `NIGHT_CALL_SHIFTS`),
and the day shift `CA GOR` on day 11, inside the trip proper, also gets
`blocks_travel = false` (the code only blocks call shifts), although the
function's documentation says it finds all shifts that need coverage. -/
theorem C4_code_bug_eval :
    ((find_trip_coverage sched4 "Me" 10 12 true).blocking_shifts.map
        (fun b => (b.date, b.shift, b.blocks_travel)) =
      [((9 : Int), "CA CV Call", false), ((11 : Int), "CA GOR", false)]) ∧
    "CA CV Call" ∈ NIGHT_CALL_SHIFTS ∧ "CA GOR" ∈ DAY_SHIFTS := by
  decide

/-! ### C7, counterexample -/

/-- **C7, counterexample.**  On `sched3` the weekend search returns a
`Hard sell` row before an `Easy` row, because the primary sort key is the
candidate weekend display string, not the ease severity. -/
theorem C7_counterexample :
    ((find_weekend_swap sched3 "Me" 2 3 0 2 []).map (fun c => c.ease) =
      ["Hard sell", "Easy"]) ∧
    ((find_weekend_swap sched3 "Me" 2 3 0 2 []).map (fun c => c.their_weekend) =
      ["Sat 01/10 - Sun 01/11", "Sat 01/17 - Sun 01/18"]) ∧
    easeOrder "Easy" < easeOrder "Hard sell" ∧
    strLt "Sat 01/10 - Sun 01/11" "Sat 01/17 - Sun 01/18" = true := by
  decide

/-! ### C9, counterexample -/

/-- **C9, counterexample.**  On `sched5` both `Zed` and `Abe` can cover the
same two shift keys; the emitted package list keeps the reverse-index
insertion order `Zed, Abe`, not the candidate-name order `Abe, Zed`. -/
theorem C9_counterexample :
    ((find_trip_coverage sched5 "Me" 10 11 false).package_recommendations.map
        (fun p => (p.candidate, p.coverage_count)) =
      [("Zed", 2), ("Abe", 2)]) ∧
    strLt "Abe" "Zed" = true := by
  decide

/-! ### Inversion lemmas for the single-shift search -/

theorem guard_false_inter {A CU : List String}
    (hguard : ¬((!A.isEmpty && intersects A CU) = true)) :
    intersects A CU = false := by
  by_cases hI : intersects A CU = true
  · by_cases hE : A.isEmpty = true
    · rw [List.isEmpty_iff] at hE
      subst hE
      rfl
    · exfalso
      apply hguard
      rw [hI, Bool.eq_false_iff.mpr hE]
      rfl
  · exact Bool.eq_false_iff.mpr hI

theorem candidateRowsFor_sound (ca : Schedule) (myName : String) (myDate : Int)
    (myShift : String) (targetRange : Option (Int × Int))
    (targetShiftType : Option String) (resident : String) (c : Candidate)
    (hc : c ∈ candidateRowsFor ca myName myDate myShift targetRange
      targetShiftType resident) :
    c.candidate = resident ∧ c.your_date = myDate ∧ c.your_shift = myShift ∧
      c.you_available_their_date = true ∧
      intersects (shiftsOf ca resident myDate) CALL_OR_UNAVAILABLE = false ∧
      intersects (shiftsOf ca myName c.their_date) CALL_OR_UNAVAILABLE = false := by
  unfold candidateRowsFor at hc
  split at hc
  · simp at hc
  · rename_i hguard
    rw [List.mem_filterMap] at hc
    obtain ⟨swap, hmem, hsome⟩ := hc
    split at hsome
    · rename_i havail
      split at hsome
      · simp at hsome
      · rw [Option.some.injEq] at hsome
        subst hsome
        exact ⟨rfl, rfl, rfl, havail, guard_false_inter hguard,
          availOn_imp ca myName swap.date havail⟩
    · simp at hsome

theorem mem_find_swap_candidates (schedule : Schedule) (myName : String)
    (myDate : Int) (myShift : String) (targetRange : Option (Int × Int))
    (targetShiftType : Option String) (c : Candidate) :
    c ∈ find_swap_candidates schedule myName myDate myShift targetRange
        targetShiftType ↔
      ∃ resident ∈ residentsOf (ca_filter schedule) myName,
        c ∈ candidateRowsFor (ca_filter schedule) myName myDate myShift
          targetRange targetShiftType resident := by
  simp only [find_swap_candidates, mem_insSort, List.mem_flatMap]

/-! ### C8: mutual availability of every returned pairing -/

/-- **C8.** Every row of `find_swap_candidates` is mutually available: the
candidate holds no call and no unavailable shift on the requester's target
date, and the requester holds no call and no unavailable shift on the
candidate's offered date. -/
theorem C8_mutual_availability (schedule : Schedule) (myName : String)
    (myDate : Int) (myShift : String) (targetRange : Option (Int × Int))
    (targetShiftType : Option String) :
    ∀ c ∈ find_swap_candidates schedule myName myDate myShift targetRange
        targetShiftType,
      intersects (shiftsOf schedule c.candidate myDate) CALL_OR_UNAVAILABLE = false ∧
      intersects (shiftsOf schedule myName c.their_date) CALL_OR_UNAVAILABLE = false := by
  intro c hc
  rw [mem_find_swap_candidates] at hc
  obtain ⟨resident, _, hcr⟩ := hc
  obtain ⟨hcand, _, _, _, h5, h6⟩ :=
    candidateRowsFor_sound _ _ _ _ _ _ _ _ hcr
  constructor
  · rw [← intersects_shiftsOf_ca schedule c.candidate myDate _ call_or_unavailable_ca,
      hcand]
    exact h5
  · rw [← intersects_shiftsOf_ca schedule myName c.their_date _ call_or_unavailable_ca]
    exact h6

/-- Witness for C8 on the concrete schedule `sched1`. -/
theorem C8_witness :
    intersects (shiftsOf sched1 "R" 10) CALL_OR_UNAVAILABLE = false ∧
    intersects (shiftsOf sched1 "Me" 11) CALL_OR_UNAVAILABLE = false :=
  C8_mutual_availability sched1 "Me" 10 "CA GOR" none none
    ⟨"R", 11, "CA CTICU", 10, "CA GOR", true⟩ (by decide)

/-! ### C10: the availability flag is always true -/

/-- **C10.** Every row of `find_swap_candidates` has
`you_available_their_date = true`: unavailable pairings are dropped, never
emitted with the flag set to false. -/
theorem C10_you_available_flag (schedule : Schedule) (myName : String)
    (myDate : Int) (myShift : String) (targetRange : Option (Int × Int))
    (targetShiftType : Option String) :
    ∀ c ∈ find_swap_candidates schedule myName myDate myShift targetRange
        targetShiftType,
      c.you_available_their_date = true := by
  intro c hc
  rw [mem_find_swap_candidates] at hc
  obtain ⟨resident, _, hcr⟩ := hc
  exact (candidateRowsFor_sound _ _ _ _ _ _ _ _ hcr).2.2.2.1

/-- Witness for C10 on the concrete schedule `sched1`. -/
theorem C10_witness :
    (⟨"R", 11, "CA CTICU", 10, "CA GOR", true⟩ : Candidate).you_available_their_date
      = true :=
  C10_you_available_flag sched1 "Me" 10 "CA GOR" none none
    ⟨"R", 11, "CA CTICU", 10, "CA GOR", true⟩ (by decide)

/-! ### Inversion lemmas for the weekend search -/

theorem intersects_append_eq_false {a c b : List String} :
    intersects (a ++ c) b = false ↔
      intersects a b = false ∧ intersects c b = false := by
  rw [intersects_append]
  cases intersects a b <;> simp

theorem weekendCandidate_sound (ca : Schedule) (myName : String) (wd0 wd1 : Int)
    (prefersNights : List String) (mySatShifts mySunShifts : List String)
    (myWeekendType : String) (saturday sunday : Int) (resident : String)
    (c : WRow)
    (h : weekendCandidate ca myName wd0 wd1 prefersNights mySatShifts
      mySunShifts myWeekendType saturday sunday resident = some c) :
    c.candidate = resident ∧ c.their_weekend = weekendLabel saturday sunday ∧
      intersects (shiftsOf ca resident saturday ++ shiftsOf ca resident sunday)
        ICU_SHIFTS = false ∧
      intersects (shiftsOf ca resident wd0 ++ shiftsOf ca resident wd1)
        ICU_SHIFTS = false ∧
      intersects (shiftsOf ca myName saturday ++ shiftsOf ca myName sunday)
        ICU_SHIFTS = false := by
  unfold weekendCandidate at h
  split at h
  · simp at h
  · rename_i h1
    split at h
    · simp at h
    · rename_i h2
      split at h
      · simp at h
      · rename_i h3
        split at h
        · split at h
          · simp at h
          · rw [Option.some.injEq] at h
            subst h
            exact ⟨rfl, rfl, Bool.eq_false_iff.mpr h1, Bool.eq_false_iff.mpr h2,
              Bool.eq_false_iff.mpr h3⟩
        · simp at h

theorem mem_find_weekend_swap_imp (schedule : Schedule) (myName : String)
    (wd0 wd1 lookBackWeeks lookForwardWeeks : Int) (prefersNights : List String)
    (c : WRow)
    (hc : c ∈ find_weekend_swap schedule myName wd0 wd1 lookBackWeeks
      lookForwardWeeks prefersNights) :
    ∃ sat resident,
      weekendCandidate (ca_filter schedule) myName wd0 wd1 prefersNights
        (shiftsOf (ca_filter schedule) myName wd0)
        (shiftsOf (ca_filter schedule) myName wd1)
        (classify_weekend_type (shiftsOf (ca_filter schedule) myName wd0)
          (shiftsOf (ca_filter schedule) myName wd1))
        sat (sat + 1) resident = some c := by
  simp only [find_weekend_swap, mem_insSort, List.mem_flatMap] at hc
  obtain ⟨current, _, hbody⟩ := hc
  split at hbody
  · simp at hbody
  · split at hbody
    · simp at hbody
    · rw [List.mem_filterMap] at hbody
      obtain ⟨resident, _, hsome⟩ := hbody
      exact ⟨current + (5 - weekday current) % 7, resident, hsome⟩

/-! ### C3: non-tradeable exclusion, corrected -/

/-- **C3, amended.**  The weekend search excludes ICU rotations on three of
the four (party, weekend) combinations: every returned row belongs to a
candidate weekend `(sat, sat + 1)` on which the candidate holds no ICU
rotation, the candidate also holds no ICU rotation on the requester's
weekend, and the requester holds no ICU rotation on the candidate's weekend.
(The requester's own weekend is not checked, and the single-shift search
performs no ICU exclusion at all — see the counterexample.) -/
theorem C3_amended_weekend_icu (schedule : Schedule) (myName : String)
    (wd0 wd1 lookBackWeeks lookForwardWeeks : Int) (prefersNights : List String) :
    ∀ c ∈ find_weekend_swap schedule myName wd0 wd1 lookBackWeeks
        lookForwardWeeks prefersNights,
      ∃ sat : Int,
        c.their_weekend = weekendLabel sat (sat + 1) ∧
        intersects (shiftsOf schedule c.candidate sat) ICU_SHIFTS = false ∧
        intersects (shiftsOf schedule c.candidate (sat + 1)) ICU_SHIFTS = false ∧
        intersects (shiftsOf schedule c.candidate wd0) ICU_SHIFTS = false ∧
        intersects (shiftsOf schedule c.candidate wd1) ICU_SHIFTS = false ∧
        intersects (shiftsOf schedule myName sat) ICU_SHIFTS = false ∧
        intersects (shiftsOf schedule myName (sat + 1)) ICU_SHIFTS = false := by
  intro c hc
  obtain ⟨sat, resident, hsome⟩ :=
    mem_find_weekend_swap_imp schedule myName wd0 wd1 lookBackWeeks
      lookForwardWeeks prefersNights c hc
  obtain ⟨hcand, hwk, hicu1, hicu2, hicu3⟩ :=
    weekendCandidate_sound _ _ _ _ _ _ _ _ _ _ _ _ hsome
  rw [intersects_append_eq_false] at hicu1 hicu2 hicu3
  subst hcand
  refine ⟨sat, hwk, ?_, ?_, ?_, ?_, ?_, ?_⟩
  · rw [← intersects_shiftsOf_ca schedule _ sat _ icu_ca]
    exact hicu1.1
  · rw [← intersects_shiftsOf_ca schedule _ (sat + 1) _ icu_ca]
    exact hicu1.2
  · rw [← intersects_shiftsOf_ca schedule _ wd0 _ icu_ca]
    exact hicu2.1
  · rw [← intersects_shiftsOf_ca schedule _ wd1 _ icu_ca]
    exact hicu2.2
  · rw [← intersects_shiftsOf_ca schedule myName sat _ icu_ca]
    exact hicu3.1
  · rw [← intersects_shiftsOf_ca schedule myName (sat + 1) _ icu_ca]
    exact hicu3.2

/-- Witness for the amended C3 on the concrete schedule `sched2`. -/
theorem C3_amended_witness :
    ∃ sat : Int,
      (⟨"R", "Sat 01/10 - Sun 01/11", "CA GOR", "OFF", "Day↔Day", "Easy",
          true⟩ : WRow).their_weekend = weekendLabel sat (sat + 1) ∧
      intersects (shiftsOf sched2 "R" sat) ICU_SHIFTS = false ∧
      intersects (shiftsOf sched2 "R" (sat + 1)) ICU_SHIFTS = false ∧
      intersects (shiftsOf sched2 "R" 2) ICU_SHIFTS = false ∧
      intersects (shiftsOf sched2 "R" 3) ICU_SHIFTS = false ∧
      intersects (shiftsOf sched2 "Me" sat) ICU_SHIFTS = false ∧
      intersects (shiftsOf sched2 "Me" (sat + 1)) ICU_SHIFTS = false :=
  C3_amended_weekend_icu sched2 "Me" 2 3 0 1 []
    ⟨"R", "Sat 01/10 - Sun 01/11", "CA GOR", "OFF", "Day↔Day", "Easy", true⟩
    (by decide)

/-! ### C7: sort order of the weekend search, corrected -/

theorem wle_iff (a b : WRow) :
    wle a b = true ↔
      (strLt a.their_weekend b.their_weekend = true ∨
        (a.their_weekend = b.their_weekend ∧ easeOrder a.ease ≤ easeOrder b.ease)) := by
  unfold wle
  rw [Bool.or_eq_true, Bool.and_eq_true, decide_eq_true_eq, decide_eq_true_eq]

theorem wle_trans (a b c : WRow) (hab : wle a b = true) (hbc : wle b c = true) :
    wle a c = true := by
  rw [wle_iff] at hab hbc ⊢
  rcases hab with h1 | ⟨h1, h1e⟩
  · rcases hbc with h2 | ⟨h2, _⟩
    · exact Or.inl (strLt_trans _ _ _ h1 h2)
    · exact Or.inl (h2 ▸ h1)
  · rcases hbc with h2 | ⟨h2, h2e⟩
    · exact Or.inl (h1 ▸ h2)
    · exact Or.inr ⟨h1.trans h2, le_trans h1e h2e⟩

theorem wle_total (a b : WRow) : wle a b = true ∨ wle b a = true := by
  rcases strLt_trichotomy a.their_weekend b.their_weekend with h | h | h
  · exact Or.inl ((wle_iff a b).mpr (Or.inl h))
  · exact Or.inr ((wle_iff b a).mpr (Or.inl h))
  · rcases Nat.le_total (easeOrder a.ease) (easeOrder b.ease) with he | he
    · exact Or.inl ((wle_iff a b).mpr (Or.inr ⟨h, he⟩))
    · exact Or.inr ((wle_iff b a).mpr (Or.inr ⟨h.symm, he⟩))

/-- **C7, amended.**  The weekend search output is sorted primarily by the
candidate weekend display string (`their_weekend`, compared as Python
compares strings) ascending, and secondarily by ease severity ascending
(`Easy` < `Moderate` < `Hard sell` < `Very hard`) — not ease first. -/
theorem C7_amended_sort_order (schedule : Schedule) (myName : String)
    (wd0 wd1 lookBackWeeks lookForwardWeeks : Int) (prefersNights : List String) :
    (find_weekend_swap schedule myName wd0 wd1 lookBackWeeks lookForwardWeeks
        prefersNights).Pairwise
      (fun a b =>
        strLt a.their_weekend b.their_weekend = true ∨
          (a.their_weekend = b.their_weekend ∧
            easeOrder a.ease ≤ easeOrder b.ease)) := by
  simp only [find_weekend_swap]
  exact (pairwise_insSort wle wle_trans wle_total _).imp
    (fun h => (wle_iff _ _).mp h)

/-! ### C9: package recommendations, corrected -/

theorem packagesOf_sound (cbs : List (String × List Candidate)) :
    (packagesOf cbs).Pairwise
        (fun p q => q.coverage_count ≤ p.coverage_count) ∧
      (∀ p ∈ packagesOf cbs,
        p.coverage_count = p.can_cover.length ∧ 1 < p.can_cover.length ∧
          (p.candidate, p.can_cover) ∈ coverageIndex cbs) ∧
      (1 < cbs.length →
        ∀ e ∈ coverageIndex cbs, 1 < e.2.length →
          ∃ p ∈ packagesOf cbs, p.candidate = e.1 ∧ p.can_cover = e.2) ∧
      (cbs.length ≤ 1 → packagesOf cbs = []) := by
  refine ⟨?_, ?_, ?_, ?_⟩
  · unfold packagesOf
    split
    · rw [List.pairwise_map]
      refine List.Pairwise.imp ?_
        (List.Pairwise.filter _
          (pairwise_insSort (fun a b => decide (b.2.length ≤ a.2.length))
            (fun a b c hab hbc => ?_) (fun a b => ?_) (coverageIndex cbs)))
      · intro a b h
        rw [decide_eq_true_eq] at h
        exact h
      · rw [decide_eq_true_eq] at hab hbc ⊢
        exact le_trans hbc hab
      · rcases Nat.le_total (b.2.length) (a.2.length) with h | h
        · exact Or.inl (by rw [decide_eq_true_eq]; exact h)
        · exact Or.inr (by rw [decide_eq_true_eq]; exact h)
    · exact List.Pairwise.nil
  · intro p hp
    unfold packagesOf at hp
    split at hp
    · rw [List.mem_map] at hp
      obtain ⟨e, he, hpe⟩ := hp
      rw [List.mem_filter, decide_eq_true_eq] at he
      obtain ⟨hins, hlen⟩ := he
      rw [mem_insSort] at hins
      subst hpe
      exact ⟨rfl, hlen, by rw [Prod.mk.eta]; exact hins⟩
    · simp at hp
  · intro hlen e he helen
    refine ⟨⟨e.1, e.2, e.2.length⟩, ?_, rfl, rfl⟩
    unfold packagesOf
    rw [if_pos hlen, List.mem_map]
    refine ⟨e, ?_, rfl⟩
    rw [List.mem_filter, decide_eq_true_eq]
    exact ⟨(mem_insSort _ e _).mpr he, helen⟩
  · intro hlen
    unfold packagesOf
    rw [if_neg (by omega)]

/-- **C9, amended.**  `package_recommendations` contains exactly the
candidates whose reverse-index coverage spans two or more shift keys (each
with its coverable keys and its coverage count), sorted by descending
coverage count; the list is only built when there is more than one shift
key; equal counts keep the reverse-index insertion order — they are *not*
re-ordered by candidate name. -/
theorem C9_amended_packages (schedule : Schedule) (myName : String)
    (tripStart tripEnd : Int) (departDayBefore : Bool) :
    ((find_trip_coverage schedule myName tripStart tripEnd
          departDayBefore).package_recommendations).Pairwise
        (fun p q => q.coverage_count ≤ p.coverage_count) ∧
      (∀ p ∈ (find_trip_coverage schedule myName tripStart tripEnd
          departDayBefore).package_recommendations,
        p.coverage_count = p.can_cover.length ∧ 1 < p.can_cover.length ∧
          (p.candidate, p.can_cover) ∈
            coverageIndex ((find_trip_coverage schedule myName tripStart
              tripEnd departDayBefore).candidates_by_shift)) ∧
      (1 < ((find_trip_coverage schedule myName tripStart tripEnd
          departDayBefore).candidates_by_shift).length →
        ∀ e ∈ coverageIndex ((find_trip_coverage schedule myName tripStart
            tripEnd departDayBefore).candidates_by_shift),
          1 < e.2.length →
            ∃ p ∈ (find_trip_coverage schedule myName tripStart tripEnd
                departDayBefore).package_recommendations,
              p.candidate = e.1 ∧ p.can_cover = e.2) ∧
      (((find_trip_coverage schedule myName tripStart tripEnd
          departDayBefore).candidates_by_shift).length ≤ 1 →
        (find_trip_coverage schedule myName tripStart tripEnd
          departDayBefore).package_recommendations = []) :=
  packagesOf_sound _

/-- Witness for the amended C9 on the concrete schedule `sched5`. -/
theorem C9_amended_witness :
    ∃ p ∈ (find_trip_coverage sched5 "Me" 10 11 false).package_recommendations,
      p.candidate = "Abe" ∧
        p.can_cover = ["1970-01-11 (CA CV Call)", "1970-01-12 (CA CLI Day Call)"] :=
  (C9_amended_packages sched5 "Me" 10 11 false).2.2.1 (by decide)
    ("Abe", ["1970-01-11 (CA CV Call)", "1970-01-12 (CA CLI Day Call)"])
    (by decide) (by decide)

end SwapFinder
